import Mathlib

/-!
Shallow embedding of the co-founder matching backend's scoring core:
the profile-suggestion engine (`controllers/suggestionController.js`) and
the CV-to-job re-ranking pipeline (`controllers/cvController.js` together
with `services/aiRerankService.js`).  JavaScript numbers are modelled as
exact rationals (`ℚ`), JavaScript arrays as `List`, objects-as-maps as
association lists, and nullable values as `Option`.
-/

namespace Cofounder

/-! ### String helpers mirroring the JavaScript string primitives -/

/-- Model of JavaScript `String.prototype.toLowerCase` (ASCII letters). -/
def strLower (s : String) : String := String.mk (s.data.map Char.toLower)

/-- Model of JavaScript `String.prototype.trim`: drop whitespace from both ends. -/
def trimChars (l : List Char) : List Char :=
  ((l.dropWhile Char.isWhitespace).reverse.dropWhile Char.isWhitespace).reverse

/-- Whether `needle` occurs at the very start of `hay` (character lists). -/
def charsLeading : List Char → List Char → Bool
  | [], _ => true
  | _ :: _, [] => false
  | a :: as, b :: bs => a == b && charsLeading as bs

/-- Whether `needle` occurs contiguously anywhere inside the second list. -/
def charsHasSeg (needle : List Char) : List Char → Bool
  | [] => needle.isEmpty
  | b :: bs => charsLeading needle (b :: bs) || charsHasSeg needle bs

/-- Model of JavaScript `String.prototype.includes`. -/
def strIncludes (hay sub : String) : Bool := charsHasSeg sub.data hay.data

/-- Splitter for `split(/\s+/)`: cut at whitespace runs.  The JavaScript split
can additionally emit one empty fragment when the string starts (or consists
only of) whitespace; every caller in the source immediately filters fragments
by a length bound greater than zero, so the splitter omits empties directly. -/
def splitWsGo (acc : List Char) : List Char → List String
  | [] => if acc.isEmpty then [] else [String.mk acc.reverse]
  | c :: rest =>
    if c.isWhitespace then
      if acc.isEmpty then splitWsGo [] rest
      else String.mk acc.reverse :: splitWsGo [] rest
    else splitWsGo (c :: acc) rest

/-! ### Jaccard index (`calculateJaccardIndex`) -/

/-- Per-label normalisation used by the Jaccard helper:
`String(item).toLowerCase().trim()`. -/
def normalizeLabel (s : String) : String := String.mk (trimChars ((strLower s).data))

/-- Model of a JavaScript `Set` built from a list: the distinct elements in
first-occurrence order.  `seen` accumulates the elements already emitted. -/
def jsSetAux (seen : List String) : List String → List String
  | [] => []
  | x :: xs => if seen.contains x then jsSetAux seen xs else x :: jsSetAux (x :: seen) xs

/-- The element list of `new Set(l)`. -/
def jsSetOf (l : List String) : List String := jsSetAux [] l

/-- Embedding of `calculateJaccardIndex(arr1, arr2)`.  The JavaScript null
checks `!arr1 || !arr2` are absorbed by the callers' `|| []` defaults, which
this embedding models by always passing a (possibly empty) list.  The source
wraps the filtered intersection in one more `Set`; the filter input is
already duplicate-free, so that wrapper does not change the size. -/
def calculateJaccardIndex (arr1 arr2 : List String) : ℚ :=
  if arr1.isEmpty || arr2.isEmpty then 0
  else
    let set1 := jsSetOf (arr1.map normalizeLabel)
    let set2 := jsSetOf (arr2.map normalizeLabel)
    let intersection := set1.filter (fun x => set2.contains x)
    let unionSet := jsSetOf (set1 ++ set2)
    if unionSet.length = 0 then 0
    else (intersection.length : ℚ) / (unionSet.length : ℚ)

/-! ### Language-distribution similarity (`calculateLanguageStatsSimilarity`) -/

/-- Reading `stats[lang] || 0` from an object modelled as an association list. -/
def langLookup (stats : List (String × ℚ)) (k : String) : ℚ :=
  match stats.find? (fun p => p.1 == k) with
  | some p => p.2
  | none => 0

/-- The union of the two key sets (`new Set([...keys1, ...keys2])`).  Only the
underlying set of keys matters to the sums below, so the deduplication order
is irrelevant. -/
def langKeys (s1 s2 : List (String × ℚ)) : List String :=
  ((s1.map Prod.fst) ++ (s2.map Prod.fst)).dedup

/-- The accumulated `totalDifference` of the source loop. -/
def langTotalDifference (s1 s2 : List (String × ℚ)) : ℚ :=
  ((langKeys s1 s2).map (fun k => |langLookup s1 k - langLookup s2 k|)).sum

/-- The accumulated `maxPossibleDifference` of the source loop. -/
def langMaxPossibleDifference (s1 s2 : List (String × ℚ)) : ℚ :=
  ((langKeys s1 s2).map (fun k => max (langLookup s1 k) (langLookup s2 k))).sum

/-- Embedding of `calculateLanguageStatsSimilarity(stats1, stats2)` for
non-null inputs (the callers default null stats to `{}`). -/
def calculateLanguageStatsSimilarity (s1 s2 : List (String × ℚ)) : ℚ :=
  if langMaxPossibleDifference s1 s2 = 0 then 0
  else 1 - langTotalDifference s1 s2 / (langMaxPossibleDifference s1 s2 * 2)

/-! ### Experience-level similarity (`calculateExperienceLevelSimilarity`) -/

/-- The `experienceLevels` table, in object insertion order: the source scans
`Object.entries` in this order and takes the first key contained in the text. -/
def experienceLevels : List (String × ℕ) :=
  [("junior", 1), ("entry", 1), ("mid", 2), ("intermediate", 2), ("senior", 3),
   ("lead", 4), ("principal", 4), ("staff", 4), ("expert", 5), ("n/a", 0)]

/-- Embedding of the inner `getExperienceLevel`: a missing or empty string is
falsy and yields 0; otherwise the first table key occurring as a substring of
the lowercased text decides the level, defaulting to 0. -/
def getExperienceLevel (e : Option String) : ℕ :=
  match e with
  | none => 0
  | some s =>
    if s.isEmpty then 0
    else
      match experienceLevels.find? (fun p => strIncludes (strLower s) p.1) with
      | some p => p.2
      | none => 0

/-- Embedding of `calculateExperienceLevelSimilarity(exp1, exp2)`. -/
def calculateExperienceLevelSimilarity (e1 e2 : Option String) : ℚ :=
  let level1 := getExperienceLevel e1
  let level2 := getExperienceLevel e2
  if level1 = 0 || level2 = 0 then 0.5
  else 1 - |(level1 : ℚ) - (level2 : ℚ)| / 4

/-! ### Repository-activity similarity (`calculateRepoActivitySimilarity`) -/

/-- Embedding of `calculateRepoActivitySimilarity(repoCount1, repoCount2)`.
Repo counts are non-negative integers; `!count` is true exactly on 0. -/
def calculateRepoActivitySimilarity (repoCount1 repoCount2 : ℕ) : ℚ :=
  if repoCount1 = 0 || repoCount2 = 0 then 0
  else if max repoCount1 repoCount2 = 0 then 1
  else (min repoCount1 repoCount2 : ℚ) / (max repoCount1 repoCount2 : ℚ)

/-! ### Free-text keyword similarity (`calculateTextSimilarity`) -/

/-- The `commonWords` stopword set of the inner `getKeywords`. -/
def commonWords : List String :=
  ["the", "a", "an", "and", "or", "but", "in", "on", "at", "to", "for", "of",
   "with", "by", "is", "are", "was", "were", "be", "been", "have", "has",
   "had", "do", "does", "did", "will", "would", "could", "should", "this",
   "that", "these", "those"]

/-- JavaScript `\w`: ASCII letters, digits and underscore. -/
def isWordChar (c : Char) : Bool := c.isAlphanum || c == '_'

/-- Embedding of the inner `getKeywords`: lowercase, replace every character
that is neither a word character nor whitespace by a space, split on
whitespace, keep words longer than 2 that are not stopwords, cap at 50. -/
def getKeywords (text : String) : List String :=
  let cleaned :=
    (strLower text).data.map (fun c => if isWordChar c || c.isWhitespace then c else ' ')
  let words := splitWsGo [] cleaned
  (words.filter (fun w => 2 < w.length && !(commonWords.contains w))).take 50

/-- Embedding of `calculateTextSimilarity(text1, text2)`; an empty string is
falsy in the JavaScript guard. -/
def calculateTextSimilarity (text1 text2 : String) : ℚ :=
  if text1.isEmpty || text2.isEmpty then 0
  else calculateJaccardIndex (getKeywords text1) (getKeywords text2)

/-! ### Profile data model

A stored profile document is a JSON blob `profile_data` whose `technical`
section carries the fields read by the scoring code.  Absent array fields are
defaulted with `|| []` at every use site, so they are modelled as plain
lists; genuinely nullable scalar fields are `Option`. -/

/-- The `technical` section of a stored profile document. -/
structure Technical where
  analysisStatus : Option String := none
  headline : Option String := none
  keyStrengths : List String := []
  identifiedTechnologies : List String := []
  potentialRoles : List String := []
  architecturalConcepts : List String := []
  languageStats : List (String × ℚ) := []
  estimatedExperience : Option String := none
  repoCount : ℕ := 0
  projectInsights : List String := []
deriving DecidableEq, Repr

/-- A stored `profile_data` document (it may lack the `technical` section). -/
structure ProfileData where
  technical : Option Technical := none
deriving DecidableEq, Repr

/-- A row of the caller's `saved_profiles` lookup (`profile_data` is nullable). -/
structure ProfileRow where
  profile_data : Option ProfileData := none
deriving DecidableEq, Repr

/-- A row of the candidate-pool query joining `users` and `saved_profiles`. -/
structure CandidateRow where
  user_id : ℕ
  github_username : String := ""
  profile_data : Option ProfileData := none
deriving DecidableEq, Repr

/-! ### Detailed match scoring (`calculateDetailedMatchScore`) -/

/-- The `scores` object accumulated factor by factor. -/
structure ScoreBreakdown where
  technicalSkills : ℚ
  technologyStack : ℚ
  programmingLanguages : ℚ
  roleCompatibility : ℚ
  architecturalConcepts : ℚ
  experienceLevel : ℚ
  repositoryActivity : ℚ
  projectInsights : ℚ
deriving DecidableEq, Repr

/-- The value returned by `calculateDetailedMatchScore`. -/
structure MatchResult where
  finalScore : ℚ
  breakdown : ScoreBreakdown
deriving DecidableEq, Repr

/-- Embedding of `calculateDetailedMatchScore(currentProfile, matchProfile)`. -/
def calculateDetailedMatchScore (currentProfile matchProfile : Technical) : MatchResult :=
  let skillsScore := calculateJaccardIndex currentProfile.keyStrengths matchProfile.keyStrengths
  let techScore := calculateJaccardIndex currentProfile.identifiedTechnologies
    matchProfile.identifiedTechnologies
  let langScore := calculateLanguageStatsSimilarity currentProfile.languageStats
    matchProfile.languageStats
  let roleScore := calculateJaccardIndex currentProfile.potentialRoles matchProfile.potentialRoles
  let archScore := calculateJaccardIndex currentProfile.architecturalConcepts
    matchProfile.architecturalConcepts
  let expScore := calculateExperienceLevelSimilarity currentProfile.estimatedExperience
    matchProfile.estimatedExperience
  let repoScore := calculateRepoActivitySimilarity currentProfile.repoCount matchProfile.repoCount
  let projectScore := calculateTextSimilarity
    (String.intercalate " " currentProfile.projectInsights)
    (String.intercalate " " matchProfile.projectInsights)
  let totalWeight : ℚ := 0.25 + 0.20 + 0.15 + 0.15 + 0.10 + 0.10 + 0.03 + 0.02
  let finalScore :=
    (skillsScore * 0.25 + techScore * 0.20 + langScore * 0.15 + roleScore * 0.15 +
      archScore * 0.10 + expScore * 0.10 + repoScore * 0.03 + projectScore * 0.02) / totalWeight
  { finalScore := max 0 (min 1 finalScore)
    breakdown := { technicalSkills := skillsScore, technologyStack := techScore,
                   programmingLanguages := langScore, roleCompatibility := roleScore,
                   architecturalConcepts := archScore, experienceLevel := expScore,
                   repositoryActivity := repoScore, projectInsights := projectScore } }

/-! ### The suggestion engine (`getSuggestions`) -/

/-- Model of JavaScript `Math.round` (half rounds toward positive infinity). -/
def jsRound (q : ℚ) : ℤ := ⌊q + 1/2⌋

/-- Model of `value || defaultString` on a nullable string (empty is falsy). -/
def jsOrString (o : Option String) (d : String) : String :=
  match o with
  | some s => if s.isEmpty then d else s
  | none => d

/-- One entry of the returned `suggestions` array.  The presentation-only
fields `topMatchingAreas` and the percentage-scaled `scoreBreakdown`, which
are projections of the same `MatchResult`, are not modelled. -/
structure Suggestion where
  user_id : ℕ
  github_username : String
  headline : String
  keyStrengths : List String
  potentialRoles : List String
  matchScore : ℤ
  matchStrength : String
  commonTechnologies : List String
  estimatedExperience : String
deriving DecidableEq, Repr

/-- The `stats` object of a successful response. -/
structure SuggestStats where
  totalCandidates : ℕ
  qualifiedMatches : ℕ
  averageMatchScore : ℤ
  topSuggestions : ℕ
deriving DecidableEq, Repr

/-- The possible JSON responses of `getSuggestions`: the no-profile rejection
(empty `suggestions` with an explanatory message), a normal result and the
generic 500 produced by the catch-all handler. -/
inductive SuggestResponse where
  | noProfile (message : String)
  | results (suggestions : List Suggestion) (stats : SuggestStats) (message : String)
  | serverError
deriving DecidableEq, Repr

/-- The loop's early `continue` tests, fused into one partial map: a
candidate contributes its technical profile unless it is in the exclusion
set, lacks profile data or a technical section, or its analysis failed. -/
def prefilter (existingIds : List ℕ) (c : CandidateRow) : Option Technical :=
  if existingIds.contains c.user_id then none
  else
    match c.profile_data with
    | none => none
    | some pd =>
      match pd.technical with
      | none => none
      | some t => if t.analysisStatus = some "failed" then none else some t

/-- Building one `suggestions` entry from a surviving candidate. -/
def mkSuggestion (currentUserProfile : Technical) (c : CandidateRow) (t : Technical)
    (r : MatchResult) : Suggestion :=
  { user_id := c.user_id
    github_username := c.github_username
    headline := jsOrString t.headline "No headline available"
    keyStrengths := t.keyStrengths.take 3
    potentialRoles := t.potentialRoles.take 2
    matchScore := jsRound (r.finalScore * 100)
    matchStrength :=
      if 0.7 ≤ r.finalScore then "Excellent"
      else if 0.5 ≤ r.finalScore then "High"
      else if 0.3 ≤ r.finalScore then "Medium"
      else "Low"
    commonTechnologies :=
      (currentUserProfile.identifiedTechnologies.filter (fun tech =>
        (t.identifiedTechnologies.map strLower).contains (strLower tech))).take 5
    estimatedExperience := jsOrString t.estimatedExperience "N/A" }

/-- The candidate loop: score every candidate surviving the `continue`
tests and keep those at or above the 0.15 threshold. -/
def suggestionsFor (currentUserProfile : Technical) (existingIds : List ℕ)
    (potentialMatches : List CandidateRow) : List Suggestion :=
  potentialMatches.filterMap (fun c =>
    (prefilter existingIds c).bind (fun t =>
      let scoreResult := calculateDetailedMatchScore currentUserProfile t
      if 0.15 ≤ scoreResult.finalScore then
        some (mkSuggestion currentUserProfile c t scoreResult)
      else none))

/-- The no-profile rejection message. -/
def noProfileMessage : String := "Please save your profile to get suggestions."

/-- The message attached when no candidate survives. -/
def noMatchesMessage : String :=
  "No suitable matches found. Try updating your profile with more technologies and skills."

/-- Embedding of `getSuggestions`.  The database reads are inputs: the
caller's saved-profile row, the candidate pool, and the three id lists whose
union forms `existingInteractionUserIds`.  When the caller's document lacks a
`technical` section the first scored candidate raises a `TypeError` on a
field access, caught as the generic server error; with no scoreable
candidate the loop completes and an empty result is returned. -/
def getSuggestions (currentUserProfileRow : Option ProfileRow)
    (potentialMatches : List CandidateRow)
    (activeConnections pendingSentRequests pendingReceivedRequests : List ℕ) :
    SuggestResponse :=
  match currentUserProfileRow with
  | none => .noProfile noProfileMessage
  | some row =>
    match row.profile_data with
    | none => .noProfile noProfileMessage
    | some pd =>
      let existingIds := activeConnections ++ pendingSentRequests ++ pendingReceivedRequests
      match pd.technical with
      | none =>
        if potentialMatches.any (fun c => (prefilter existingIds c).isSome) then .serverError
        else
          .results [] { totalCandidates := potentialMatches.length, qualifiedMatches := 0,
                        averageMatchScore := 0, topSuggestions := 0 } noMatchesMessage
      | some currentUserProfile =>
        let suggestions := suggestionsFor currentUserProfile existingIds potentialMatches
        let sorted := suggestions.mergeSort (fun a b => decide (b.matchScore ≤ a.matchScore))
        let topSuggestions := sorted.take 20
        let stats : SuggestStats :=
          { totalCandidates := potentialMatches.length
            qualifiedMatches := suggestions.length
            averageMatchScore :=
              if 0 < suggestions.length then
                jsRound ((suggestions.map (fun s => (s.matchScore : ℚ))).sum /
                  (suggestions.length : ℚ))
              else 0
            topSuggestions := topSuggestions.length }
        .results topSuggestions stats
          (if topSuggestions.length = 0 then noMatchesMessage
           else "Found " ++ toString topSuggestions.length ++
             " potential matches based on your profile.")

/-! ### CV-to-job matcher: AI re-rank stage

`getMatchesForUser` (cvController) retrieves at most ten jobs ordered by
descending `ts_rank` relevance, fans out one LLM call per job through
`aiRerankService.getAiRank`, blends the two scores and re-sorts.  The
embedding covers `getAiRank`'s fallback behaviour and the blending and
re-ranking step; the database and LLM answers are inputs. -/

/-- A row of the stage-1 full-text query. -/
structure JobRow where
  id : ℕ
  job_title : String := ""
  company_name : String := ""
  job_url : String := ""
  description_html : String := ""
  score : ℚ
deriving DecidableEq, Repr

/-- The value `getAiRank` resolves with. -/
structure AiResult where
  aiScore : ℤ
  reason : String
deriving DecidableEq, Repr

/-- The observable outcome of one LLM call for one job: the call threw, or
it returned content whose parsed `ai_score` is `aiScoreRaw` (`none` models a
JSON parse failure or a `parseInt` result of `NaN`) and whose `reason` field
is `reason`. -/
inductive LlmResult where
  | threw
  | ok (aiScoreRaw : Option ℤ) (reason : Option String)
deriving DecidableEq, Repr

/-- The neutral fallback of `getAiRank`'s catch block. -/
def fallbackAiResult : AiResult :=
  { aiScore := 50, reason := "AI analysis could not be completed for this job." }

/-- Embedding of `aiRerankService.getAiRank`: an exception anywhere in the
try block (the call itself, JSON parsing, or the explicit range check
throwing on a score outside `[1,100]`) lands in the catch block's neutral
fallback. -/
def getAiRank (r : LlmResult) : AiResult :=
  match r with
  | .threw => fallbackAiResult
  | .ok raw rsn =>
    match raw with
    | none => fallbackAiResult
    | some n =>
      if n < 1 ∨ 100 < n then fallbackAiResult
      else { aiScore := n, reason := jsOrString rsn "Analysis complete." }

/-- Whether an LLM outcome degrades to the neutral fallback. -/
def LlmResult.degraded : LlmResult → Bool
  | .threw => true
  | .ok none _ => true
  | .ok (some n) _ => decide (n < 1) || decide (100 < n)

/-- One entry of the re-ranked `matchedJobs` array (`...job` spread plus the
`aiAnalysis` attachment and the blended `finalScore`). -/
structure RankedJob where
  job : JobRow
  aiScore : ℤ
  aiReason : String
  finalScore : ℚ
deriving DecidableEq, Repr

/-- The `pgWeight` constant. -/
def pgWeight : ℚ := 0.3

/-- The `aiWeight` constant. -/
def aiWeight : ℚ := 0.7

/-- Embedding of step 3 of `getMatchesForUser`: the stage-1 batch (already
ordered by the SQL `ORDER BY score DESC`) is blended index-wise with the
settled AI results and re-sorted by the blended score.  `initialMatches[0]`
is read only after the earlier empty-batch early return, hence the match. -/
def rerankJobs (initialMatches : List JobRow) (aiResults : List AiResult) : List RankedJob :=
  match initialMatches with
  | [] => []
  | first :: _ =>
    let maxPgScore : ℚ := if 0 < first.score then first.score else 1
    let reranked := (initialMatches.zip aiResults).map (fun p =>
      { job := p.1, aiScore := p.2.aiScore, aiReason := p.2.reason,
        finalScore := (p.1.score / maxPgScore) * pgWeight +
          ((p.2.aiScore : ℚ) / 100) * aiWeight : RankedJob })
    reranked.mergeSort (fun a b => decide (b.finalScore ≤ a.finalScore))

/-- The maximum stage-1 relevance score of a batch (scores are `ts_rank`
values, hence non-negative). -/
def batchMaxScore (batch : List JobRow) : ℚ := (batch.map JobRow.score).foldr max 0

/-! ## Verification -/

/-! ### Basic facts about the JavaScript `Set` model -/

lemma mem_jsSetAux {x : String} :
    ∀ (l seen : List String), x ∈ jsSetAux seen l ↔ x ∈ l ∧ x ∉ seen := by
  intro l
  induction l with
  | nil => intro seen; simp [jsSetAux]
  | cons a as ih =>
    intro seen
    simp only [jsSetAux]
    by_cases hc : seen.contains a = true
    · rw [if_pos hc, ih]
      have ha : a ∈ seen := List.elem_iff.mp hc
      constructor
      · rintro ⟨h1, h2⟩; exact ⟨List.mem_cons_of_mem _ h1, h2⟩
      · rintro ⟨h1, h2⟩
        rcases List.mem_cons.mp h1 with rfl | h1
        · exact absurd ha h2
        · exact ⟨h1, h2⟩
    · rw [if_neg hc]
      have ha : a ∉ seen := fun h => hc (List.elem_iff.mpr h)
      simp only [List.mem_cons, ih]
      rcases Decidable.em (x = a) with rfl | hxa
      · simp [ha]
      · simp [hxa]

lemma mem_jsSetOf {x : String} {l : List String} : x ∈ jsSetOf l ↔ x ∈ l := by
  unfold jsSetOf; rw [mem_jsSetAux]; simp

lemma nodup_jsSetAux : ∀ (l seen : List String), (jsSetAux seen l).Nodup := by
  intro l
  induction l with
  | nil => intro seen; simp [jsSetAux]
  | cons a as ih =>
    intro seen
    simp only [jsSetAux]
    by_cases hc : seen.contains a = true
    · rw [if_pos hc]; exact ih seen
    · rw [if_neg hc]
      refine List.Nodup.cons ?_ (ih (a :: seen))
      intro hmem
      exact ((mem_jsSetAux as (a :: seen)).mp hmem).2 (List.mem_cons_self a seen)

lemma nodup_jsSetOf (l : List String) : (jsSetOf l).Nodup := nodup_jsSetAux l []

lemma toFinset_jsSetOf (l : List String) : (jsSetOf l).toFinset = l.toFinset := by
  ext x; simp [List.mem_toFinset, mem_jsSetOf]

lemma length_jsSetOf (l : List String) : (jsSetOf l).length = l.toFinset.card := by
  rw [← List.toFinset_card_of_nodup (nodup_jsSetOf l), toFinset_jsSetOf]

/-! ### Structure of the Jaccard index -/

lemma jaccard_inter_length (l1 l2 : List String) :
    ((jsSetOf l1).filter (fun x => (jsSetOf l2).contains x)).length =
      (l1.toFinset ∩ l2.toFinset).card := by
  have hnd : ((jsSetOf l1).filter (fun x => (jsSetOf l2).contains x)).Nodup :=
    (nodup_jsSetOf l1).filter _
  rw [← List.toFinset_card_of_nodup hnd]
  congr 1
  ext x
  simp only [List.mem_toFinset, List.mem_filter, Finset.mem_inter, mem_jsSetOf]
  exact and_congr Iff.rfl (List.elem_iff.trans mem_jsSetOf)

lemma jaccard_union_length (l1 l2 : List String) :
    (jsSetOf (jsSetOf l1 ++ jsSetOf l2)).length = (l1.toFinset ∪ l2.toFinset).card := by
  rw [length_jsSetOf, List.toFinset_append, toFinset_jsSetOf, toFinset_jsSetOf]

lemma toFinset_map_normalize_nonempty {arr : List String} (h : arr ≠ []) :
    (arr.map normalizeLabel).toFinset.Nonempty := by
  cases arr with
  | nil => exact absurd rfl h
  | cons a as =>
    exact ⟨normalizeLabel a, by simp [List.mem_toFinset]⟩

/-- The Jaccard value, rewritten through `Finset` cardinalities for the
non-degenerate case. -/
lemma calculateJaccardIndex_eq_cards (arr1 arr2 : List String)
    (h1 : arr1 ≠ []) (h2 : arr2 ≠ []) :
    calculateJaccardIndex arr1 arr2 =
      (((arr1.map normalizeLabel).toFinset ∩ (arr2.map normalizeLabel).toFinset).card : ℚ) /
      (((arr1.map normalizeLabel).toFinset ∪ (arr2.map normalizeLabel).toFinset).card : ℚ) := by
  have hcard : ((arr1.map normalizeLabel).toFinset ∪ (arr2.map normalizeLabel).toFinset).card ≠ 0 := by
    rw [Ne, Finset.card_eq_zero, ← Ne, ← Finset.nonempty_iff_ne_empty]
    exact (toFinset_map_normalize_nonempty h1).mono Finset.subset_union_left
  simp only [calculateJaccardIndex]
  rw [if_neg (by simp [h1, h2]), if_neg (by rw [jaccard_union_length]; exact hcard),
    jaccard_inter_length, jaccard_union_length]

/-- C9: the Jaccard primitive satisfies `jaccard(A, A) = 1` for non-empty
`A`; `jaccard(A, B) = 0` for non-empty inputs whose normalised label sets
are disjoint; `jaccard([], B) = 0`; symmetry; and case/whitespace
insensitivity of labels, witnessed by `jaccard(["Go"], ["go "]) = 1`. -/
theorem jaccard_algebraic_properties :
    (∀ A : List String, A ≠ [] → calculateJaccardIndex A A = 1) ∧
    (∀ A B : List String, A ≠ [] → B ≠ [] →
      (∀ x ∈ A.map normalizeLabel, x ∉ B.map normalizeLabel) →
      calculateJaccardIndex A B = 0) ∧
    (∀ B : List String, calculateJaccardIndex [] B = 0) ∧
    (∀ A B : List String, calculateJaccardIndex A B = calculateJaccardIndex B A) ∧
    calculateJaccardIndex ["Go"] ["go "] = 1 := by
  refine ⟨?_, ?_, ?_, ?_, ?_⟩
  · intro A hA
    rw [calculateJaccardIndex_eq_cards A A hA hA, Finset.inter_self, Finset.union_self]
    have hpos : 0 < (A.map normalizeLabel).toFinset.card :=
      Finset.card_pos.mpr (toFinset_map_normalize_nonempty hA)
    have : ((A.map normalizeLabel).toFinset.card : ℚ) ≠ 0 := by exact_mod_cast hpos.ne'
    exact div_self this
  · intro A B hA hB hd
    rw [calculateJaccardIndex_eq_cards A B hA hB]
    have hie : (A.map normalizeLabel).toFinset ∩ (B.map normalizeLabel).toFinset = ∅ := by
      rw [← Finset.disjoint_iff_inter_eq_empty, Finset.disjoint_left]
      intro x hx hxB
      exact hd x (List.mem_toFinset.mp hx) (List.mem_toFinset.mp hxB)
    rw [hie, Finset.card_empty]
    simp
  · intro B
    simp [calculateJaccardIndex]
  · intro A B
    rcases Decidable.em (A = []) with rfl | hA
    · simp [calculateJaccardIndex]
    · rcases Decidable.em (B = []) with rfl | hB
      · simp [calculateJaccardIndex]
      · rw [calculateJaccardIndex_eq_cards A B hA hB, calculateJaccardIndex_eq_cards B A hB hA,
          Finset.inter_comm, Finset.union_comm]
  · with_unfolding_all rfl

/-- Witness for `jaccard_algebraic_properties` at concrete label lists. -/
theorem jaccard_algebraic_properties_witness :
    calculateJaccardIndex ["rust", "go"] ["rust", "go"] = 1 ∧
    calculateJaccardIndex ["rust"] ["go"] = 0 ∧
    calculateJaccardIndex [] ["go"] = 0 ∧
    calculateJaccardIndex ["rust"] ["go", "rust"] = calculateJaccardIndex ["go", "rust"] ["rust"] ∧
    calculateJaccardIndex ["Go"] ["go "] = 1 :=
  ⟨jaccard_algebraic_properties.1 ["rust", "go"] (by decide),
   jaccard_algebraic_properties.2.1 ["rust"] ["go"] (by decide) (by decide) (by decide),
   jaccard_algebraic_properties.2.2.1 ["go"],
   jaccard_algebraic_properties.2.2.2.1 ["rust"] ["go", "rust"],
   jaccard_algebraic_properties.2.2.2.2⟩

/-! ### Bounds for the language-distribution similarity -/

lemma langLookup_nonneg {s : List (String × ℚ)} (h : ∀ p ∈ s, 0 ≤ p.2) (k : String) :
    0 ≤ langLookup s k := by
  unfold langLookup
  cases hf : s.find? (fun p => p.1 == k) with
  | none => exact le_refl 0
  | some p => exact h p (List.mem_of_find?_eq_some hf)

lemma abs_sub_le_max_of_nonneg {a b : ℚ} (ha : 0 ≤ a) (hb : 0 ≤ b) : |a - b| ≤ max a b := by
  rcases le_total a b with h | h
  · rw [abs_of_nonpos (by linarith)]
    have := le_max_right a b
    linarith
  · rw [abs_of_nonneg (by linarith)]
    have := le_max_left a b
    linarith

lemma langTotalDifference_nonneg (s1 s2 : List (String × ℚ)) :
    0 ≤ langTotalDifference s1 s2 := by
  apply List.sum_nonneg
  intro x hx
  obtain ⟨k, _, rfl⟩ := List.mem_map.mp hx
  exact abs_nonneg _

lemma langMaxPossibleDifference_nonneg {s1 s2 : List (String × ℚ)}
    (h1 : ∀ p ∈ s1, 0 ≤ p.2) :
    0 ≤ langMaxPossibleDifference s1 s2 := by
  apply List.sum_nonneg
  intro x hx
  obtain ⟨k, _, rfl⟩ := List.mem_map.mp hx
  exact le_trans (langLookup_nonneg h1 k) (le_max_left _ _)

lemma langTotalDifference_le_max {s1 s2 : List (String × ℚ)}
    (h1 : ∀ p ∈ s1, 0 ≤ p.2) (h2 : ∀ p ∈ s2, 0 ≤ p.2) :
    langTotalDifference s1 s2 ≤ langMaxPossibleDifference s1 s2 := by
  apply List.sum_le_sum
  intro k _
  exact abs_sub_le_max_of_nonneg (langLookup_nonneg h1 k) (langLookup_nonneg h2 k)

/-- In the non-degenerate branch the similarity lands in `[1/2, 1]`. -/
lemma langSim_band_of_pos {s1 s2 : List (String × ℚ)}
    (h1 : ∀ p ∈ s1, 0 ≤ p.2) (h2 : ∀ p ∈ s2, 0 ≤ p.2)
    (hM : langMaxPossibleDifference s1 s2 ≠ 0) :
    1/2 ≤ calculateLanguageStatsSimilarity s1 s2 ∧
      calculateLanguageStatsSimilarity s1 s2 ≤ 1 := by
  have hM0 : 0 ≤ langMaxPossibleDifference s1 s2 := langMaxPossibleDifference_nonneg h1
  have hMpos : 0 < langMaxPossibleDifference s1 s2 := lt_of_le_of_ne hM0 (Ne.symm hM)
  have h2M : (0 : ℚ) < langMaxPossibleDifference s1 s2 * 2 := by linarith
  unfold calculateLanguageStatsSimilarity
  rw [if_neg hM]
  constructor
  · have hT : langTotalDifference s1 s2 ≤ langMaxPossibleDifference s1 s2 :=
      langTotalDifference_le_max h1 h2
    have hdiv : langTotalDifference s1 s2 / (langMaxPossibleDifference s1 s2 * 2) ≤
        langMaxPossibleDifference s1 s2 / (langMaxPossibleDifference s1 s2 * 2) :=
      (div_le_div_iff_of_pos_right h2M).mpr hT
    have hhalf : langMaxPossibleDifference s1 s2 / (langMaxPossibleDifference s1 s2 * 2) =
        1/2 := by
      rw [div_eq_iff (by linarith)]
      ring
    linarith
  · have hT0 : 0 ≤ langTotalDifference s1 s2 := langTotalDifference_nonneg s1 s2
    have : 0 ≤ langTotalDifference s1 s2 / (langMaxPossibleDifference s1 s2 * 2) :=
      div_nonneg hT0 (by linarith)
    linarith

/-- C10: for non-negative language stats the similarity is either exactly 0
(the degenerate all-zero branch) or lies in `[1/2, 1]`; in particular, with a
positive sum of per-key maxima the result is in `[1/2, 1]`, and no value
strictly between 0 and 1/2 is ever returned. -/
theorem languageStats_band (s1 s2 : List (String × ℚ))
    (h1 : ∀ p ∈ s1, 0 ≤ p.2) (h2 : ∀ p ∈ s2, 0 ≤ p.2) :
    (calculateLanguageStatsSimilarity s1 s2 = 0 ∨
      (1/2 ≤ calculateLanguageStatsSimilarity s1 s2 ∧
        calculateLanguageStatsSimilarity s1 s2 ≤ 1)) ∧
    (0 < langMaxPossibleDifference s1 s2 →
      (1/2 ≤ calculateLanguageStatsSimilarity s1 s2 ∧
        calculateLanguageStatsSimilarity s1 s2 ≤ 1)) := by
  constructor
  · rcases Decidable.em (langMaxPossibleDifference s1 s2 = 0) with hM | hM
    · left
      unfold calculateLanguageStatsSimilarity
      rw [if_pos hM]
    · right
      exact langSim_band_of_pos h1 h2 hM
  · intro h
    exact langSim_band_of_pos h1 h2 h.ne'

/-- Witness for `languageStats_band` on two overlapping distributions. -/
theorem languageStats_band_witness :
    1/2 ≤ calculateLanguageStatsSimilarity [("go", 60)] [("go", 40)] ∧
    calculateLanguageStatsSimilarity [("go", 60)] [("go", 40)] ≤ 1 :=
  (languageStats_band [("go", 60)] [("go", 40)]
    (by intro p hp; fin_cases hp; norm_num)
    (by intro p hp; fin_cases hp; norm_num)).2
    (by rw [show langMaxPossibleDifference [("go", 60)] [("go", 40)] = 60 from
          by with_unfolding_all rfl]
        norm_num)

/-- C7 counterexample: two completely disjoint one-language distributions
with positive percentages evaluate to 1/2, not to the claimed 0. -/
theorem languageStats_disjoint_not_zero :
    calculateLanguageStatsSimilarity [("typescript", 100)] [("python", 100)] = 1/2 ∧
    ((1 : ℚ)/2 ≠ 0) :=
  ⟨by with_unfolding_all rfl, by norm_num⟩

/-- C7 amended: identical distributions with a positive per-key-maxima sum
give 1.0; completely disjoint distributions (per union key one side is 0)
with a positive maxima sum give 1/2; and for non-negative stats the result
lies in `[0, 1]`. -/
theorem languageStats_amended :
    (∀ s : List (String × ℚ), langMaxPossibleDifference s s ≠ 0 →
      calculateLanguageStatsSimilarity s s = 1) ∧
    (∀ s1 s2 : List (String × ℚ), (∀ p ∈ s1, 0 ≤ p.2) → (∀ p ∈ s2, 0 ≤ p.2) →
      (∀ k ∈ langKeys s1 s2, langLookup s1 k = 0 ∨ langLookup s2 k = 0) →
      langMaxPossibleDifference s1 s2 ≠ 0 →
      calculateLanguageStatsSimilarity s1 s2 = 1/2) ∧
    (∀ s1 s2 : List (String × ℚ), (∀ p ∈ s1, 0 ≤ p.2) → (∀ p ∈ s2, 0 ≤ p.2) →
      0 ≤ calculateLanguageStatsSimilarity s1 s2 ∧
        calculateLanguageStatsSimilarity s1 s2 ≤ 1) := by
  refine ⟨?_, ?_, ?_⟩
  · intro s hM
    have hT : langTotalDifference s s = 0 := by
      apply List.sum_eq_zero
      intro x hx
      obtain ⟨k, _, rfl⟩ := List.mem_map.mp hx
      simp
    unfold calculateLanguageStatsSimilarity
    rw [if_neg hM, hT, zero_div, sub_zero]
  · intro s1 s2 h1 h2 hd hM
    have hTM : langTotalDifference s1 s2 = langMaxPossibleDifference s1 s2 := by
      unfold langTotalDifference langMaxPossibleDifference
      congr 1
      apply List.map_congr_left
      intro k hk
      rcases hd k hk with hz | hz
      · rw [hz, zero_sub, abs_neg, abs_of_nonneg (langLookup_nonneg h2 k),
          max_eq_right (langLookup_nonneg h2 k)]
      · rw [hz, sub_zero, abs_of_nonneg (langLookup_nonneg h1 k),
          max_eq_left (langLookup_nonneg h1 k)]
    have hhalf : langMaxPossibleDifference s1 s2 / (langMaxPossibleDifference s1 s2 * 2) =
        1/2 := by
      rw [div_eq_iff (mul_ne_zero hM two_ne_zero)]
      ring
    unfold calculateLanguageStatsSimilarity
    rw [if_neg hM, hTM, hhalf]
    norm_num
  · intro s1 s2 h1 h2
    rcases Decidable.em (langMaxPossibleDifference s1 s2 = 0) with hM | hM
    · unfold calculateLanguageStatsSimilarity
      rw [if_pos hM]
      norm_num
    · have h := langSim_band_of_pos h1 h2 hM
      exact ⟨by linarith [h.1], h.2⟩

/-- Witness for `languageStats_amended` on concrete distributions. -/
theorem languageStats_amended_witness :
    calculateLanguageStatsSimilarity [("go", 50)] [("go", 50)] = 1 ∧
    calculateLanguageStatsSimilarity [("typescript", 100)] [("python", 100)] = 1/2 ∧
    (0 ≤ calculateLanguageStatsSimilarity [("go", 60)] [("rust", 40)] ∧
      calculateLanguageStatsSimilarity [("go", 60)] [("rust", 40)] ≤ 1) := by
  refine ⟨languageStats_amended.1 [("go", 50)] ?_,
    languageStats_amended.2.1 _ _ ?_ ?_ ?_ ?_,
    languageStats_amended.2.2 _ _ ?_ ?_⟩
  · rw [show langMaxPossibleDifference [("go", (50 : ℚ))] [("go", 50)] = 50 from
      by with_unfolding_all rfl]
    norm_num
  · intro p hp; fin_cases hp; norm_num
  · intro p hp; fin_cases hp; norm_num
  · intro k hk
    rw [show langKeys [("typescript", (100 : ℚ))] [("python", 100)] =
        ["typescript", "python"] from by with_unfolding_all rfl] at hk
    fin_cases hk
    · right; with_unfolding_all rfl
    · left; with_unfolding_all rfl
  · rw [show langMaxPossibleDifference [("typescript", (100 : ℚ))] [("python", 100)] = 200 from
      by with_unfolding_all rfl]
    norm_num
  · intro p hp; fin_cases hp; norm_num
  · intro p hp; fin_cases hp; norm_num

/-- C6: on the both-zero input the falsy guard `!repoCount1 || !repoCount2`
fires before the both-zero branch (whose own comment announces a result of
1), so the function returns 0 there — the both-zero branch is unreachable. -/
theorem repoActivity_both_zero_is_zero : calculateRepoActivitySimilarity 0 0 = 0 := by
  with_unfolding_all rfl

/-- C2: the final score equals the fixed-weight combination of the eight
breakdown factors clamped to `[0, 1]` (the division by the accumulated
`totalWeight` is division by exactly 1), and it always lies in `[0, 1]`. -/
theorem detailedMatchScore_weighted_clamped (p q : Technical) :
    (calculateDetailedMatchScore p q).finalScore =
      max 0 (min 1
        ((calculateDetailedMatchScore p q).breakdown.technicalSkills * 0.25 +
         (calculateDetailedMatchScore p q).breakdown.technologyStack * 0.20 +
         (calculateDetailedMatchScore p q).breakdown.programmingLanguages * 0.15 +
         (calculateDetailedMatchScore p q).breakdown.roleCompatibility * 0.15 +
         (calculateDetailedMatchScore p q).breakdown.architecturalConcepts * 0.10 +
         (calculateDetailedMatchScore p q).breakdown.experienceLevel * 0.10 +
         (calculateDetailedMatchScore p q).breakdown.repositoryActivity * 0.03 +
         (calculateDetailedMatchScore p q).breakdown.projectInsights * 0.02)) ∧
    0 ≤ (calculateDetailedMatchScore p q).finalScore ∧
    (calculateDetailedMatchScore p q).finalScore ≤ 1 := by
  have hw : (0.25 + 0.20 + 0.15 + 0.15 + 0.10 + 0.10 + 0.03 + 0.02 : ℚ) = 1 := by norm_num
  have h1 : (calculateDetailedMatchScore p q).finalScore =
      max 0 (min 1
        ((calculateDetailedMatchScore p q).breakdown.technicalSkills * 0.25 +
         (calculateDetailedMatchScore p q).breakdown.technologyStack * 0.20 +
         (calculateDetailedMatchScore p q).breakdown.programmingLanguages * 0.15 +
         (calculateDetailedMatchScore p q).breakdown.roleCompatibility * 0.15 +
         (calculateDetailedMatchScore p q).breakdown.architecturalConcepts * 0.10 +
         (calculateDetailedMatchScore p q).breakdown.experienceLevel * 0.10 +
         (calculateDetailedMatchScore p q).breakdown.repositoryActivity * 0.03 +
         (calculateDetailedMatchScore p q).breakdown.projectInsights * 0.02)) := by
    simp only [calculateDetailedMatchScore, hw, div_one]
  refine ⟨h1, ?_, ?_⟩
  · rw [h1]; exact le_max_left _ _
  · rw [h1]; exact max_le (by norm_num) (min_le_left _ _)

/-! ### Structure of the suggestion loop -/

lemma prefilter_spec {ids : List ℕ} {c : CandidateRow} {t : Technical}
    (h : prefilter ids c = some t) :
    c.user_id ∉ ids ∧ ∃ pd, c.profile_data = some pd ∧ pd.technical = some t ∧
      t.analysisStatus ≠ some "failed" := by
  unfold prefilter at h
  by_cases hc : ids.contains c.user_id = true
  · rw [if_pos hc] at h; cases h
  · rw [if_neg hc] at h
    have hmem : c.user_id ∉ ids := fun hm => hc (List.elem_iff.mpr hm)
    cases hpd : c.profile_data with
    | none => simp only [hpd] at h; exact Option.noConfusion h
    | some pd =>
      simp only [hpd] at h
      cases hpt : pd.technical with
      | none => simp only [hpt] at h; exact Option.noConfusion h
      | some t' =>
        simp only [hpt] at h
        by_cases hst : t'.analysisStatus = some "failed"
        · rw [if_pos hst] at h; cases h
        · rw [if_neg hst] at h
          obtain rfl : t' = t := Option.some.inj h
          exact ⟨hmem, pd, rfl, hpt, hst⟩

lemma mkSuggestion_user_id (cur : Technical) (c : CandidateRow) (t : Technical)
    (r : MatchResult) : (mkSuggestion cur c t r).user_id = c.user_id := rfl

lemma mem_suggestionsFor {current : Technical} {ids : List ℕ} {pool : List CandidateRow}
    {s : Suggestion} :
    s ∈ suggestionsFor current ids pool ↔
      ∃ c ∈ pool, ∃ t, prefilter ids c = some t ∧
        0.15 ≤ (calculateDetailedMatchScore current t).finalScore ∧
        s = mkSuggestion current c t (calculateDetailedMatchScore current t) := by
  unfold suggestionsFor
  rw [List.mem_filterMap]
  constructor
  · rintro ⟨c, hc, hf⟩
    rw [Option.bind_eq_some] at hf
    obtain ⟨t, hpre, hif⟩ := hf
    have hif' : (if 0.15 ≤ (calculateDetailedMatchScore current t).finalScore then
        some (mkSuggestion current c t (calculateDetailedMatchScore current t))
      else none) = some s := hif
    by_cases h15 : 0.15 ≤ (calculateDetailedMatchScore current t).finalScore
    · rw [if_pos h15] at hif'
      exact ⟨c, hc, t, hpre, h15, (Option.some.inj hif').symm⟩
    · rw [if_neg h15] at hif'
      cases hif'
  · rintro ⟨c, hc, t, hpre, h15, rfl⟩
    refine ⟨c, hc, ?_⟩
    rw [hpre]
    simp [h15]

/-- C1: on a successful run the returned list has at most 20 entries, is
sorted descending by the reported match score, mentions no user from the
exclusion set, and every entry originates from a pool candidate that passed
the filters with a composite score of at least 0.15. -/
theorem getSuggestions_output_invariants
    (row : ProfileRow) (pd : ProfileData) (current : Technical)
    (hpd : row.profile_data = some pd) (hcur : pd.technical = some current)
    (pool : List CandidateRow) (conns sent recv : List ℕ)
    (l : List Suggestion) (st : SuggestStats) (msg : String)
    (hout : getSuggestions (some row) pool conns sent recv = .results l st msg) :
    l.length ≤ 20 ∧
    l.Pairwise (fun a b => b.matchScore ≤ a.matchScore) ∧
    (∀ s ∈ l, s.user_id ∉ conns ++ sent ++ recv) ∧
    (∀ s ∈ l, ∃ c ∈ pool, ∃ t, prefilter (conns ++ sent ++ recv) c = some t ∧
      s.user_id = c.user_id ∧
      0.15 ≤ (calculateDetailedMatchScore current t).finalScore ∧
      s = mkSuggestion current c t (calculateDetailedMatchScore current t)) := by
  simp only [getSuggestions, hpd, hcur] at hout
  rw [SuggestResponse.results.injEq] at hout
  obtain ⟨hl, -, -⟩ := hout
  subst hl
  refine ⟨?_, ?_, ?_, ?_⟩
  · rw [List.length_take]
    exact min_le_left _ _
  · have htrans : ∀ a b c : Suggestion,
        (fun a b : Suggestion => decide (b.matchScore ≤ a.matchScore)) a b = true →
        (fun a b : Suggestion => decide (b.matchScore ≤ a.matchScore)) b c = true →
        (fun a b : Suggestion => decide (b.matchScore ≤ a.matchScore)) a c = true := by
      intro a b c h1 h2
      simp only [decide_eq_true_eq] at h1 h2 ⊢
      exact le_trans h2 h1
    have htot : ∀ a b : Suggestion,
        ((fun a b : Suggestion => decide (b.matchScore ≤ a.matchScore)) a b ||
         (fun a b : Suggestion => decide (b.matchScore ≤ a.matchScore)) b a) = true := by
      intro a b
      simp only [Bool.or_eq_true, decide_eq_true_eq]
      exact le_total _ _
    have hs := List.sorted_mergeSort htrans htot
      (suggestionsFor current (conns ++ sent ++ recv) pool)
    exact (List.Pairwise.sublist (List.take_sublist 20 _) hs).imp
      (fun h => of_decide_eq_true h)
  · intro s hsmem
    have h1 := List.mem_mergeSort.mp (List.mem_of_mem_take hsmem)
    obtain ⟨c, hc, t, hpre, h15, rfl⟩ := mem_suggestionsFor.mp h1
    exact (prefilter_spec hpre).1
  · intro s hsmem
    have h1 := List.mem_mergeSort.mp (List.mem_of_mem_take hsmem)
    obtain ⟨c, hc, t, hpre, h15, rfl⟩ := mem_suggestionsFor.mp h1
    exact ⟨c, hc, t, hpre, rfl, h15, rfl⟩

/-! ### Concrete profiles used to instantiate the engine theorems -/

/-- A caller profile with a successful analysis. -/
def exCaller : Technical :=
  { analysisStatus := some "success"
    keyStrengths := ["Go", "Distributed Systems"]
    identifiedTechnologies := ["go", "postgres"] }

/-- A candidate profile similar to `exCaller`. -/
def exAlice : Technical :=
  { analysisStatus := some "success"
    headline := some "Backend dev"
    keyStrengths := ["go", "distributed systems"]
    identifiedTechnologies := ["Go", "postgres"] }

/-- A candidate profile whose analysis is still pending (neither success nor
failed). -/
def exPending : Technical :=
  { analysisStatus := some "pending"
    keyStrengths := ["go", "distributed systems"]
    identifiedTechnologies := ["go", "postgres"] }

/-- A caller profile whose AI analysis failed. -/
def exFailedCaller : Technical :=
  { analysisStatus := some "failed"
    keyStrengths := ["go", "distributed systems"] }

/-- A candidate profile whose AI analysis failed. -/
def exFailedTech : Technical := { analysisStatus := some "failed" }

/-- The caller's saved-profile row holding `exCaller`. -/
def exRow : ProfileRow := { profile_data := some { technical := some exCaller } }

/-- Pool row for the similar candidate. -/
def candAlice : CandidateRow :=
  { user_id := 3, github_username := "alice"
    profile_data := some { technical := some exAlice } }

/-- Pool row for the pending-analysis candidate. -/
def candPending : CandidateRow :=
  { user_id := 7, github_username := "bob"
    profile_data := some { technical := some exPending } }

/-- Pool row for the failed-analysis candidate. -/
def candFailed : CandidateRow :=
  { user_id := 7, github_username := "carol"
    profile_data := some { technical := some exFailedTech } }

/-- The suggestion produced for `candAlice` against `exCaller`. -/
def sugAlice : Suggestion :=
  { user_id := 3, github_username := "alice", headline := "Backend dev"
    keyStrengths := ["go", "distributed systems"], potentialRoles := []
    matchScore := 50, matchStrength := "High"
    commonTechnologies := ["go", "postgres"], estimatedExperience := "N/A" }

/-- Witness for `getSuggestions_output_invariants` on a one-candidate run. -/
theorem getSuggestions_output_invariants_witness :
    [sugAlice].length ≤ 20 ∧
    [sugAlice].Pairwise (fun a b => b.matchScore ≤ a.matchScore) := by
  have h := getSuggestions_output_invariants exRow { technical := some exCaller } exCaller
    rfl rfl [candAlice] [] [] [] [sugAlice]
    { totalCandidates := 1, qualifiedMatches := 1, averageMatchScore := 50, topSuggestions := 1 }
    "Found 1 potential matches based on your profile."
    (by with_unfolding_all rfl)
  exact ⟨h.1, h.2.1⟩

/-- The suggestion produced for `candPending` against `exCaller`. -/
def sugBob : Suggestion :=
  { user_id := 7, github_username := "bob", headline := "No headline available"
    keyStrengths := ["go", "distributed systems"], potentialRoles := []
    matchScore := 50, matchStrength := "High"
    commonTechnologies := ["go", "postgres"], estimatedExperience := "N/A" }

/-- C5 counterexample: a candidate whose `analysisStatus` is `"pending"` —
hence lacking `success` — passes the `=== 'failed'` filter and appears in
the returned suggestion list. -/
theorem pending_candidate_appears :
    exPending.analysisStatus ≠ some "success" ∧
    getSuggestions (some exRow) [candPending] [] [] [] =
      .results [sugBob]
        { totalCandidates := 1, qualifiedMatches := 1, averageMatchScore := 50,
          topSuggestions := 1 }
        "Found 1 potential matches based on your profile." ∧
    sugBob.user_id = candPending.user_id :=
  ⟨by decide, by with_unfolding_all rfl, rfl⟩

/-- C5 amended: the filter rejects exactly the status `"failed"` (besides
missing documents): if every pool row carrying a given user id has a
technical section whose `analysisStatus` is `"failed"`, that id never
appears in the output.  Since the profile generator only ever writes
`"success"` or `"failed"`, for generator-produced profiles this coincides
with "lacking success". -/
theorem failed_candidates_never_suggested
    (row : ProfileRow) (pool : List CandidateRow) (conns sent recv : List ℕ) (u : ℕ)
    (hu : ∀ c ∈ pool, c.user_id = u →
      ∃ pd t, c.profile_data = some pd ∧ pd.technical = some t ∧
        t.analysisStatus = some "failed")
    (l : List Suggestion) (st : SuggestStats) (msg : String)
    (hout : getSuggestions (some row) pool conns sent recv = .results l st msg) :
    ∀ s ∈ l, s.user_id ≠ u := by
  cases hpd : row.profile_data with
  | none =>
    simp only [getSuggestions, hpd] at hout
    exact SuggestResponse.noConfusion hout
  | some pd =>
    cases hcur : pd.technical with
    | none =>
      simp only [getSuggestions, hpd, hcur] at hout
      by_cases hany : pool.any
          (fun c => (prefilter (conns ++ sent ++ recv) c).isSome) = true
      · rw [if_pos hany] at hout
        exact SuggestResponse.noConfusion hout
      · rw [if_neg hany] at hout
        rw [SuggestResponse.results.injEq] at hout
        obtain ⟨hl, -, -⟩ := hout
        intro s hs
        rw [← hl] at hs
        exact absurd hs (List.not_mem_nil s)
    | some current =>
      simp only [getSuggestions, hpd, hcur] at hout
      rw [SuggestResponse.results.injEq] at hout
      obtain ⟨hl, -, -⟩ := hout
      intro s hs hsu
      rw [← hl] at hs
      have h1 := List.mem_mergeSort.mp (List.mem_of_mem_take hs)
      obtain ⟨c, hc, t, hpre, h15, rfl⟩ := mem_suggestionsFor.mp h1
      obtain ⟨-, pd', hpd', ht', hstat⟩ := prefilter_spec hpre
      obtain ⟨pd2, t2, hpd2, ht2, hst2⟩ := hu c hc hsu
      rw [hpd'] at hpd2
      obtain rfl := Option.some.inj hpd2
      rw [ht'] at ht2
      obtain rfl := Option.some.inj ht2
      exact hstat hst2

/-- Witness for `failed_candidates_never_suggested`: with one healthy and
one failed-analysis candidate, the failed candidate's id 7 cannot label any
returned suggestion. -/
theorem failed_candidates_never_suggested_witness : sugAlice.user_id ≠ 7 :=
  failed_candidates_never_suggested exRow [candAlice, candFailed] [] [] [] 7
    (by
      intro c hc hcu
      fin_cases hc
      · exact absurd hcu (by decide)
      · exact ⟨{ technical := some exFailedTech }, exFailedTech, rfl, rfl, rfl⟩)
    [sugAlice]
    { totalCandidates := 2, qualifiedMatches := 1, averageMatchScore := 50,
      topSuggestions := 1 }
    "Found 1 potential matches based on your profile."
    (by with_unfolding_all rfl)
    sugAlice (List.mem_singleton.mpr rfl)

/-- C8 counterexample: a caller whose own stored profile has
`analysisStatus = "failed"` is not rejected — candidate scoring proceeds
and yields a non-empty suggestion list with the normal success message. -/
theorem failed_caller_still_scored :
    exFailedCaller.analysisStatus = some "failed" ∧
    getSuggestions (some { profile_data := some { technical := some exFailedCaller } })
        [candAlice] [] [] [] =
      .results
        [{ user_id := 3, github_username := "alice", headline := "Backend dev"
           keyStrengths := ["go", "distributed systems"], potentialRoles := []
           matchScore := 30, matchStrength := "Medium"
           commonTechnologies := [], estimatedExperience := "N/A" }]
        { totalCandidates := 1, qualifiedMatches := 1, averageMatchScore := 30,
          topSuggestions := 1 }
        "Found 1 potential matches based on your profile." :=
  ⟨rfl, by with_unfolding_all rfl⟩

/-- C8 amended: the engine rejects with an empty suggestion list and the
explanatory message — performing no candidate scoring — exactly when the
caller has no saved-profile row or its `profile_data` is null; the caller's
own `analysisStatus` is never consulted. -/
theorem noProfile_rejected (row? : Option ProfileRow)
    (pool : List CandidateRow) (conns sent recv : List ℕ)
    (h : row? = none ∨ row? = some { profile_data := none }) :
    getSuggestions row? pool conns sent recv = .noProfile noProfileMessage := by
  rcases h with rfl | rfl
  · rfl
  · rfl

/-- Witness for `noProfile_rejected` at the missing-row input. -/
theorem noProfile_rejected_witness :
    getSuggestions none [] [] [] [] = .noProfile noProfileMessage :=
  noProfile_rejected none [] [] [] [] (Or.inl rfl)

/-! ### Structure of the CV re-ranking stage -/

lemma foldr_max_le {c : ℚ} (hc : 0 ≤ c) :
    ∀ {l : List ℚ}, (∀ x ∈ l, x ≤ c) → l.foldr max 0 ≤ c := by
  intro l
  induction l with
  | nil => intro _; simpa using hc
  | cons a as ih =>
    intro h
    simp only [List.foldr_cons]
    exact max_le (h a (List.mem_cons_self a as))
      (ih (fun x hx => h x (List.mem_cons_of_mem a hx)))

lemma batchMaxScore_eq_head (first : JobRow) (rest : List JobRow)
    (hsorted : (first :: rest).Pairwise (fun a b => b.score ≤ a.score))
    (hnn : ∀ j ∈ first :: rest, 0 ≤ j.score) :
    batchMaxScore (first :: rest) = first.score := by
  unfold batchMaxScore
  simp only [List.map_cons, List.foldr_cons]
  apply max_eq_left
  apply foldr_max_le (hnn first (List.mem_cons_self _ _))
  intro x hx
  obtain ⟨j, hj, rfl⟩ := List.mem_map.mp hx
  exact (List.pairwise_cons.mp hsorted).1 j hj

lemma map_job_blend (batch : List JobRow) (ai : List AiResult) (m : ℚ)
    (hlen : batch.length ≤ ai.length) :
    ((batch.zip ai).map (fun p : JobRow × AiResult =>
      ({ job := p.1, aiScore := p.2.aiScore, aiReason := p.2.reason,
         finalScore := (p.1.score / m) * pgWeight +
           ((p.2.aiScore : ℚ) / 100) * aiWeight } : RankedJob))).map RankedJob.job = batch := by
  rw [List.map_map]
  exact (List.map_congr_left (fun p _ => rfl)).trans (List.map_fst_zip _ _ hlen)

/-- C3: given the stage-1 batch exactly as the SQL delivers it (non-empty,
sorted descending by relevance, non-negative `ts_rank` scores) and one AI
result per job, every output entry carries the blended score
`0.3 * (pg_score / max) + 0.7 * (ai_score / 100)` with divisor 1 substituted
for a zero maximum, the output is a permutation of the full batch (nothing
is dropped), and it is sorted descending by the blended score. -/
theorem rerankJobs_blended_complete_sorted
    (batch : List JobRow) (aiResults : List AiResult) (d : ℚ)
    (hne : batch ≠ [])
    (hsorted : batch.Pairwise (fun a b => b.score ≤ a.score))
    (hnn : ∀ j ∈ batch, 0 ≤ j.score)
    (hlen : aiResults.length = batch.length)
    (hd : d = if batchMaxScore batch = 0 then 1 else batchMaxScore batch) :
    (∀ r ∈ rerankJobs batch aiResults,
        r.finalScore = 0.3 * (r.job.score / d) + 0.7 * ((r.aiScore : ℚ) / 100)) ∧
    ((rerankJobs batch aiResults).map RankedJob.job).Perm batch ∧
    (rerankJobs batch aiResults).Pairwise (fun a b => b.finalScore ≤ a.finalScore) := by
  cases batch with
  | nil => exact absurd rfl hne
  | cons first rest =>
    have hmax : batchMaxScore (first :: rest) = first.score :=
      batchMaxScore_eq_head first rest hsorted hnn
    have h0 : 0 ≤ first.score := hnn first (List.mem_cons_self _ _)
    have hmaxPg : (if 0 < first.score then first.score else 1) = d := by
      rw [hd, hmax]
      rcases Decidable.em (first.score = 0) with hz | hz
      · rw [if_pos hz, hz, if_neg (lt_irrefl 0)]
      · rw [if_neg hz, if_pos (lt_of_le_of_ne h0 (Ne.symm hz))]
    refine ⟨?_, ?_, ?_⟩
    · intro r hr
      simp only [rerankJobs] at hr
      rw [List.mem_mergeSort] at hr
      obtain ⟨p, hp, rfl⟩ := List.mem_map.mp hr
      show (p.1.score / (if 0 < first.score then first.score else 1)) * pgWeight +
        ((p.2.aiScore : ℚ) / 100) * aiWeight = 0.3 * (p.1.score / d) + 0.7 * ((p.2.aiScore : ℚ) / 100)
      rw [hmaxPg]
      unfold pgWeight aiWeight
      ring
    · simp only [rerankJobs]
      refine ((List.mergeSort_perm _ _).map RankedJob.job).trans ?_
      rw [map_job_blend _ _ _ (le_of_eq hlen.symm)]
    · have htrans : ∀ a b c : RankedJob,
          (fun a b : RankedJob => decide (b.finalScore ≤ a.finalScore)) a b = true →
          (fun a b : RankedJob => decide (b.finalScore ≤ a.finalScore)) b c = true →
          (fun a b : RankedJob => decide (b.finalScore ≤ a.finalScore)) a c = true := by
        intro a b c h1 h2
        simp only [decide_eq_true_eq] at h1 h2 ⊢
        exact le_trans h2 h1
      have htot : ∀ a b : RankedJob,
          ((fun a b : RankedJob => decide (b.finalScore ≤ a.finalScore)) a b ||
           (fun a b : RankedJob => decide (b.finalScore ≤ a.finalScore)) b a) = true := by
        intro a b
        simp only [Bool.or_eq_true, decide_eq_true_eq]
        exact le_total _ _
      simp only [rerankJobs]
      exact (List.sorted_mergeSort htrans htot _).imp (fun h => of_decide_eq_true h)

/-- A stage-1 job with the higher relevance score. -/
def exJob1 : JobRow := { id := 1, score := 10 }

/-- A stage-1 job with the lower relevance score. -/
def exJob2 : JobRow := { id := 2, score := 5 }

/-- An AI answer for `exJob1`. -/
def exAi1 : AiResult := { aiScore := 80, reason := "strong overlap" }

/-- An AI answer for `exJob2`. -/
def exAi2 : AiResult := { aiScore := 80, reason := "decent overlap" }

/-- Witness for `rerankJobs_blended_complete_sorted` on a two-job batch. -/
theorem rerankJobs_blended_complete_sorted_witness :
    ((rerankJobs [exJob1, exJob2] [exAi1, exAi2]).map RankedJob.job).Perm [exJob1, exJob2] ∧
    (rerankJobs [exJob1, exJob2] [exAi1, exAi2]).Pairwise
      (fun a b => b.finalScore ≤ a.finalScore) := by
  have h := rerankJobs_blended_complete_sorted [exJob1, exJob2] [exAi1, exAi2] 10
    (by decide)
    (of_decide_eq_true (by with_unfolding_all rfl))
    (of_decide_eq_true (by with_unfolding_all rfl))
    rfl
    (by with_unfolding_all rfl)
  exact ⟨h.2.1, h.2.2⟩

/-- A degraded LLM outcome is absorbed into the neutral fallback. -/
lemma getAiRank_degraded {r : LlmResult} (h : r.degraded = true) :
    getAiRank r = fallbackAiResult := by
  cases r with
  | threw => rfl
  | ok raw rsn =>
    cases raw with
    | none => rfl
    | some n =>
      simp only [LlmResult.degraded, Bool.or_eq_true, decide_eq_true_eq] at h
      simp only [getAiRank]
      rw [if_pos h]

/-- C4: with one LLM outcome per stage-1 job, every job appears in the
re-ranked output carrying exactly the score and reason its own `getAiRank`
call settled with; a job whose call threw or whose response was unparseable
or out of range appears with score 50 and the fixed fallback reason; and the
output has exactly one entry per stage-1 job, so no failure aborts the
batch. -/
theorem aiFallback_isolated
    (batch : List JobRow) (outcomes : List LlmResult)
    (hlen : outcomes.length = batch.length)
    (i : ℕ) (hib : i < batch.length) (hio : i < outcomes.length) :
    (∃ r ∈ rerankJobs batch (outcomes.map getAiRank),
        r.job = batch.get ⟨i, hib⟩ ∧
        r.aiScore = (getAiRank (outcomes.get ⟨i, hio⟩)).aiScore ∧
        r.aiReason = (getAiRank (outcomes.get ⟨i, hio⟩)).reason) ∧
    ((outcomes.get ⟨i, hio⟩).degraded = true →
      ∃ r ∈ rerankJobs batch (outcomes.map getAiRank),
        r.job = batch.get ⟨i, hib⟩ ∧ r.aiScore = 50 ∧
        r.aiReason = "AI analysis could not be completed for this job.") ∧
    (rerankJobs batch (outcomes.map getAiRank)).length = batch.length := by
  cases batch with
  | nil => exact absurd hib (by simp)
  | cons first rest =>
    have him : i < (outcomes.map getAiRank).length := by simpa using hio
    have hiz : i < ((first :: rest).zip (outcomes.map getAiRank)).length := by
      rw [List.length_zip, List.length_map, hlen]
      simpa using hib
    have hz : ((first :: rest).zip (outcomes.map getAiRank)).get ⟨i, hiz⟩ =
        ((first :: rest).get ⟨i, hib⟩, (outcomes.map getAiRank).get ⟨i, him⟩) := by
      simp [List.get_eq_getElem, List.getElem_zip]
    have hm : (outcomes.map getAiRank).get ⟨i, him⟩ = getAiRank (outcomes.get ⟨i, hio⟩) := by
      simp [List.get_eq_getElem, List.getElem_map]
    have hget := List.get_mem ((first :: rest).zip (outcomes.map getAiRank)) i hiz
    have hexists : ∃ r ∈ rerankJobs (first :: rest) (outcomes.map getAiRank),
        r.job = (first :: rest).get ⟨i, hib⟩ ∧
        r.aiScore = (getAiRank (outcomes.get ⟨i, hio⟩)).aiScore ∧
        r.aiReason = (getAiRank (outcomes.get ⟨i, hio⟩)).reason := by
      simp only [rerankJobs]
      refine ⟨_, List.mem_mergeSort.mpr (List.mem_map_of_mem _ hget), ?_, ?_, ?_⟩
      · show (((first :: rest).zip (outcomes.map getAiRank)).get ⟨i, hiz⟩).1 =
          (first :: rest).get ⟨i, hib⟩
        rw [hz]
      · show (((first :: rest).zip (outcomes.map getAiRank)).get ⟨i, hiz⟩).2.aiScore =
          (getAiRank (outcomes.get ⟨i, hio⟩)).aiScore
        rw [hz, hm]
      · show (((first :: rest).zip (outcomes.map getAiRank)).get ⟨i, hiz⟩).2.reason =
          (getAiRank (outcomes.get ⟨i, hio⟩)).reason
        rw [hz, hm]
    refine ⟨hexists, ?_, ?_⟩
    · intro hdeg
      obtain ⟨r, hr, hj, hsc, hrs⟩ := hexists
      exact ⟨r, hr, hj, by rw [hsc, getAiRank_degraded hdeg]; rfl,
        by rw [hrs, getAiRank_degraded hdeg]; rfl⟩
    · simp only [rerankJobs]
      rw [List.length_mergeSort, List.length_map, List.length_zip, List.length_map, hlen]
      exact min_self _

/-- Witness for `aiFallback_isolated`: a two-job batch where the first LLM
call threw and the second parsed normally. -/
theorem aiFallback_isolated_witness :
    (rerankJobs [exJob1, exJob2]
      ([LlmResult.threw, LlmResult.ok (some 80) (some "fits well")].map getAiRank)).length =
      [exJob1, exJob2].length := by
  have h := aiFallback_isolated [exJob1, exJob2]
    [LlmResult.threw, LlmResult.ok (some 80) (some "fits well")] rfl 0 (by decide) (by decide)
  exact h.2.2

end Cofounder
